import Mathlib

/-!
Shallow embedding of the ingestion pipeline of `scraper.py` and of the damage
translation table of `app.py` from the repository `wyszukiwarka-andrzeja`.

Modelling conventions:
* A Python dict produced by a source adapter or read back from the catalog
  file is modelled as the `Listing` structure holding the union of the key
  sets written by `_parse_iaai_card` and `_parse_copart_lot`; a key a given
  adapter does not write is the empty string.
* The persisted catalog file is modelled as `Option (Option (List Listing))`:
  `none` = file missing, `some none` = file present but malformed JSON
  (where `json.load` raises), `some (some c)` = file parses to catalog `c`.
* Machine-level effects (HTTP, timestamps, local-time conversion) are passed
  in as explicit parameters: the Copart API is a function from page index to
  response, `now` is the `datetime.now()` string and `epochFmt` is the
  `datetime.fromtimestamp` rendering (returning `none` where Python's
  `try/except` swallows a conversion error).
-/

/-- Unified listing record: union of the dict keys produced by
`_parse_iaai_card` and `_parse_copart_lot` in `scraper.py`. -/
structure Listing where
  source : String := ""
  name : String := ""
  year : String := ""
  make_model : String := ""
  vin : String := ""
  lot_number : String := ""
  odometer : String := ""
  est_value : String := ""
  repair_cost : String := ""
  title_doc : String := ""
  damage : String := ""
  secondary_damage : String := ""
  acv : String := ""
  location : String := ""
  bid : String := ""
  buy_now : String := ""
  auction_date : String := ""
  engine : String := ""
  drive_status : String := ""
  keys : String := ""
  link : String := ""
  image_url : String := ""
  date_found : String := ""
  deriving DecidableEq

/-- The persisted catalog file (`data/listings.json`): missing, malformed,
or parsed content. -/
abbrev CatalogFile := Option (Option (List Listing))

/-- `load_existing_listings` (scraper.py:40-44): returns `[]` when the file
does not exist; a present file is handed to `json.load`, whose parse failure
on a malformed file is an uncaught exception, modelled as `.error`. -/
def load_existing_listings : CatalogFile → Except String (List Listing)
  | none => .ok []
  | some none => .error "json.load failed on malformed listings file"
  | some (some c) => .ok c

/-- `get_existing_ids` (scraper.py:53-54): the set of `link` values of the
loaded catalog. -/
def get_existing_ids (listings : List Listing) : Finset String :=
  (listings.map Listing.link).toFinset

/-- The per-item acceptance loop of `run_scraper` (scraper.py:399-402 and
412-415): an item is appended to `new_listings` iff its `link` is non-empty
(truthy) and not in `existing_ids`, in which case its link is added to
`existing_ids`.  Returns the accepted items in order together with the final
identity index. -/
def processItems : List Listing → Finset String → List Listing × Finset String
  | [], ids => ([], ids)
  | item :: rest, ids =>
    if item.link ≠ "" ∧ item.link ∉ ids then
      let p := processItems rest (insert item.link ids)
      (item :: p.1, p.2)
    else
      processItems rest ids

/-- Result of one `run_scraper` invocation: the returned `new_listings`,
whether `save_listings` was called, and the catalog file afterwards. -/
structure RunOutcome where
  new_listings : List Listing
  wrote : Bool
  file : CatalogFile
  deriving DecidableEq

/-- `run_scraper` (scraper.py:377-451).  The two adapters are passed in as
`Except` values: `.error` models the exception that the surrounding
`try/except` of `run_scraper` catches (contributing zero records), `.ok`
the list the adapter returned.  The IAAI loop runs first, then the Copart
loop, sharing `existing_ids` and `new_listings`; `save_listings` is called
iff `new_listings` is non-empty, overwriting the file with
`existing + new_listings`. -/
def run_scraper (file : CatalogFile)
    (iaai copart : Except String (List Listing)) : Except String RunOutcome :=
  match load_existing_listings file with
  | .error e => .error e
  | .ok existing =>
    let ids0 := get_existing_ids existing
    let p1 := processItems (iaai.toOption.getD []) ids0
    let p2 := processItems (copart.toOption.getD []) p1.2
    let newListings := p1.1 ++ p2.1
    if newListings ≠ [] then
      .ok ⟨newListings, true, some (some (existing ++ newListings))⟩
    else
      .ok ⟨newListings, false, file⟩

/-- Content of the catalog file as the dashboard reads it. -/
def catalogOf : CatalogFile → List Listing
  | some (some c) => c
  | _ => []

/-! ### String primitives shared by the adapter models

Python string operations used by `scraper.py` / `app.py` are modelled over
`List Char` (ASCII: the scraped descriptions, table keys and search tokens
are ASCII). -/

/-- Model of "the list starts with `pat`". -/
def startsL : List Char → List Char → Bool
  | [], _ => true
  | _ :: _, [] => false
  | p :: ps, c :: cs => decide (p = c) && startsL ps cs

/-- Model of Python's substring test `needle in hay`. -/
def hasSub (needle : List Char) : List Char → Bool
  | [] => startsL needle []
  | c :: cs => startsL needle (c :: cs) || hasSub needle cs

/-- Substring test on `String`s. -/
def hasSubS (needle hay : String) : Bool := hasSub needle.data hay.data

/-- Model of Python's `str.replace(pat, rep)`: leftmost, non-overlapping,
replaces every occurrence.  (`pat = ""` is inert here; the source only
replaces non-empty patterns.)  The fuel argument makes the recursion
structural; each step consumes at least one character, so fuel equal to the
input length never runs out. -/
def replaceLAux (pat rep : List Char) : Nat → List Char → List Char
  | 0, l => l
  | _ + 1, [] => []
  | fuel + 1, c :: cs =>
    if pat ≠ [] ∧ startsL pat (c :: cs) then
      rep ++ replaceLAux pat rep fuel (cs.drop (pat.length - 1))
    else
      c :: replaceLAux pat rep fuel cs

/-- `str.replace(pat, rep)` over character lists. -/
def replaceL (pat rep s : List Char) : List Char := replaceLAux pat rep s.length s

/-- `str.replace` on `String`s. -/
def strReplace (s pat rep : String) : String :=
  String.mk (replaceL pat.data rep.data s.data)

/-- Python whitespace stripped by `str.strip()`. -/
def isSpaceB (c : Char) : Bool :=
  decide (c = ' ') || decide (c = '\t') || decide (c = '\n') || decide (c = '\r') ||
    decide (c.toNat = 11) || decide (c.toNat = 12)

/-- Model of Python's `str.strip()`. -/
def trimL (l : List Char) : List Char :=
  ((l.dropWhile isSpaceB).reverse.dropWhile isSpaceB).reverse

/-- `str.strip()` on `String`s. -/
def trimS (s : String) : String := String.mk (trimL s.data)

/-- Model of Python's `str.lower()` (ASCII). -/
def myLower (s : String) : String := String.mk (s.data.map Char.toLower)

/-- Model of Python's `str.upper()` (ASCII). -/
def myUpper (s : String) : String := String.mk (s.data.map Char.toUpper)

/-- Model of Python's `str.title()` (ASCII): a letter is upper-cased after a
non-letter and lower-cased after a letter. -/
def titleCaseAux : Bool → List Char → List Char
  | _, [] => []
  | prevAlpha, c :: cs =>
    if c.isAlpha then
      (if prevAlpha then c.toLower else c.toUpper) :: titleCaseAux true cs
    else
      c :: titleCaseAux false cs

/-- `str.title()` on `String`s. -/
def titleCase (s : String) : String := String.mk (titleCaseAux false s.data)

/-- Digit characters of a natural number, most significant first (model of
Python's rendering of a non-negative integer), with structural fuel; the
value shrinks by a factor of ten per step, so fuel `n + 1` never runs
out. -/
def natDigitsAux : Nat → Nat → List Char
  | 0, _ => []
  | fuel + 1, n =>
    if n < 10 then [Nat.digitChar n]
    else natDigitsAux fuel (n / 10) ++ [Nat.digitChar (n % 10)]

/-- Digit characters of a natural number, most significant first. -/
def natDigits (n : Nat) : List Char := natDigitsAux (n + 1) n

/-- In a reversed digit list, insert a comma after every third character:
helper for the thousands-separated rendering. -/
def groupRev : List Char → List Char
  | c1 :: c2 :: c3 :: c4 :: rest => c1 :: c2 :: c3 :: ',' :: groupRev (c4 :: rest)
  | l => l

/-- Model of Python's `f"{n:,.0f}"` on a non-negative integer: decimal
digits with a comma every three digits from the right. -/
def fmtComma (n : Nat) : String :=
  String.mk ((groupRev (natDigits n).reverse).reverse)

/-! ### The year scanner of `_parse_copart_lot`

`re.search(r"\b(19|20)\d{2}\b", ld)` (scraper.py:262), modelled as a
leftmost scan over the characters of `ld`.  `isWordChar` is the ASCII
reading of the regex word class `\w`. -/

/-- ASCII `\d`. -/
def isDigitB (c : Char) : Bool := decide (48 ≤ c.toNat) && decide (c.toNat ≤ 57)

/-- ASCII `\w`: letters, digits, underscore. -/
def isWordChar (c : Char) : Bool :=
  (decide (65 ≤ c.toNat) && decide (c.toNat ≤ 90)) ||
    (decide (97 ≤ c.toNat) && decide (c.toNat ≤ 122)) ||
    isDigitB c || decide (c = '_')

/-- A `\b` boundary holds before the current position, given the previous
character (`none` at the start of the string). -/
def boundaryB : Option Char → Bool
  | none => true
  | some c => !isWordChar c

/-- A `\b` boundary holds after the 4-character window, given the remaining
characters. -/
def noWordAhead : List Char → Bool
  | [] => true
  | c :: _ => !isWordChar c

/-- The alternation `(19|20)` of the regex. -/
def isYearPair (c1 c2 : Char) : Bool :=
  (decide (c1 = '1') && decide (c2 = '9')) || (decide (c1 = '2') && decide (c2 = '0'))

/-- Does `\b(19|20)\d{2}\b` match exactly at the current position?  Returns
the matched 4-character window. -/
def yearHere (prev : Option Char) : List Char → Option (List Char)
  | c1 :: c2 :: c3 :: c4 :: rest =>
    if boundaryB prev && isYearPair c1 c2 && isDigitB c3 && isDigitB c4 &&
        noWordAhead rest then
      some [c1, c2, c3, c4]
    else none
  | _ => none

/-- Leftmost-match scan of `re.search`, tracking the previous character for
the leading boundary test. -/
def findYearAux : Option Char → List Char → Option (List Char)
  | _, [] => none
  | prev, c :: rest =>
    match yearHere prev (c :: rest) with
    | some y => some y
    | none => findYearAux (some c) rest

/-- `year_match.group(0)` of scraper.py:262-264: the matched year text, or
`""` when the regex does not match. -/
def findYear (s : String) : String :=
  match findYearAux none s.data with
  | some y => String.mk y
  | none => ""

/-! Specification-side characterisation of the year search (the claim's
words): the first position of the description holding a 4-digit token whose
value lies in [1900, 2099], with word boundaries on both sides. -/

/-- Numeric value of a digit string. -/
def digitsVal (l : List Char) : Nat := l.foldl (fun a c => 10 * a + (c.toNat - 48)) 0

/-- The window is all digits with numeric value in [1900, 2099]. -/
def isYearWindow (w : List Char) : Bool :=
  w.all isDigitB && decide (1900 ≤ digitsVal w) && decide (digitsVal w ≤ 2099)

/-- Word boundary before position `i` of `s`. -/
def beforeOk (s : List Char) (i : Nat) : Bool :=
  match i with
  | 0 => true
  | j + 1 =>
    match s.get? j with
    | some c => !isWordChar c
    | none => true

/-- Word boundary after the window `[i, i+4)` of `s`. -/
def afterOk (s : List Char) (i : Nat) : Bool :=
  match s.get? (i + 4) with
  | some c => !isWordChar c
  | none => true

/-- A 4-digit year token in range [1900, 2099] sits at position `i` of `s`. -/
def yearTokenAt (s : List Char) (i : Nat) : Bool :=
  decide (i + 4 ≤ s.length) && isYearWindow ((s.drop i).take 4) &&
    beforeOk s i && afterOk s i

/-- The previous character seen by the scanner when it has advanced `i`
characters into `l`, having started with previous character `prev`. -/
def prevOf (prev : Option Char) (l : List Char) (i : Nat) : Option Char :=
  match i with
  | 0 => prev
  | j + 1 => l.get? j

/-- The scanner, started on `l` with previous character `prev`, finds a
match exactly at offset `i`. -/
def tokenFrom (prev : Option Char) (l : List Char) (i : Nat) : Bool :=
  (yearHere (prevOf prev l i) (l.drop i)).isSome

/-! ### The Copart adapter (`scrape_copart` / `_parse_copart_lot`) -/

/-- The fields of one Copart API lot object that `_parse_copart_lot` and the
page filter read (scraper.py:226-331).  Monetary and numeric raw values are
modelled as `Option Nat` (`none` = key absent); `ln` is modelled as the
string rendering of the lot number (`""` = key absent). -/
structure CopartLot where
  ln : String := ""
  ld : String := ""
  mmod : String := ""
  orr : Option Nat := none
  ord : String := ""
  la : Option Nat := none
  rc : Option Nat := none
  dd : String := ""
  td : String := ""
  tgd : String := ""
  yn : String := ""
  hb : Option Nat := none
  ad : Option Nat := none
  fv : String := ""
  tims : String := ""
  egn : String := ""
  sdd : String := ""
  lcd : String := ""
  hk : String := ""
  bnp : Option Nat := none
  deriving DecidableEq

/-- `_map_copart_drive_status` (scraper.py:359-373). -/
def _map_copart_drive_status (lcd : String) : String :=
  if lcd = "" then ""
  else
    let u := myUpper lcd
    if hasSubS "RUN" u && hasSubS "DRIVE" u then "Run & Drive"
    else if hasSubS "ENHANCED" u then "Enhanced"
    else if hasSubS "ENGINE START" u || hasSubS "STARTS" u then "Starts"
    else if hasSubS "STATIONARY" u then "Stationary"
    else titleCase (trimS lcd)

/-- `_parse_copart_lot` (scraper.py:249-356).  `now` is the
`datetime.now()` stamp; `epochFmt` models the `datetime.fromtimestamp`
rendering of an epoch-milliseconds value (`none` where the Python
`try/except` swallows the conversion error).  The odometer takes the
integer branch of the source's int/float distinction (`Nat` model). -/
def _parse_copart_lot (now : String) (epochFmt : Nat → Option String)
    (lot : CopartLot) : Option Listing :=
  if lot.ld = "" then none
  else
    let year := findYear lot.ld
    let mm := if year = "" then lot.ld else trimS (strReplace lot.ld year "")
    let odo1 := match lot.orr with
      | some v => if v ≠ 0 then String.mk (natDigits v) else ""
      | none => ""
    let odometer := if lot.ord ≠ "" then odo1 ++ " (" ++ lot.ord ++ ")" else odo1
    let estValue := match lot.la with
      | some v => if v ≠ 0 then "$" ++ fmtComma v else ""
      | none => ""
    let repairCost := match lot.rc with
      | some v => if v ≠ 0 then "$" ++ fmtComma v else ""
      | none => ""
    let titleDoc := if lot.tgd ≠ "" ∧ ¬ (hasSubS lot.tgd lot.td = true) then lot.tgd else lot.td
    let hb := lot.hb.getD 0
    let bidStr := if hb ≠ 0 then "$" ++ fmtComma hb else ""
    let auctionDate := match lot.ad with
      | some v => if v ≠ 0 then (epochFmt v).getD "" else ""
      | none => ""
    let bnp := lot.bnp.getD 0
    let buyNow := if bnp > 0 then "$" ++ fmtComma bnp else ""
    some {
      source := "Copart"
      name := lot.ld
      year := year
      make_model := mm
      vin := strReplace lot.fv "******" "***"
      lot_number := lot.ln
      odometer := odometer
      est_value := estValue
      repair_cost := repairCost
      title_doc := titleDoc
      damage := lot.dd
      secondary_damage := lot.sdd
      bid := bidStr
      buy_now := buyNow
      auction_date := auctionDate
      location := lot.yn
      engine := lot.egn
      drive_status := _map_copart_drive_status lot.lcd
      keys := lot.hk
      link := "https://www.copart.com/lot/" ++ lot.ln
      image_url := lot.tims
      date_found := now }

/-- One response envelope of the Copart search API as `scrape_copart` reads
it: HTTP status, `returnCode`, `data.results.content`,
`data.results.totalElements`. -/
structure CopartResponse where
  status : Nat := 200
  returnCode : Int := 1
  content : List CopartLot := []
  totalElements : Nat := 0

/-- `SEARCH_MODEL` (scraper.py:27). -/
def SEARCH_MODEL : String := "xc40"

/-- `model_upper = SEARCH_MODEL.upper()` (scraper.py:166). -/
def model_upper : String := myUpper SEARCH_MODEL

/-- The per-lot filter of scraper.py:227-229: keep a lot iff the search
model token occurs in `mmod` or `ld`, case-insensitively. -/
def lotMatches (lot : CopartLot) : Bool :=
  hasSubS model_upper (myUpper lot.mmod) || hasSubS model_upper (myUpper lot.ld)

/-- The items one page contributes: matching lots, parsed, `None` results
dropped (scraper.py:226-232). -/
def pageItems (now : String) (epochFmt : Nat → Option String)
    (content : List CopartLot) : List Listing :=
  (content.filter lotMatches).filterMap (_parse_copart_lot now epochFmt)

/-- The pagination loop of `scrape_copart` (scraper.py:199-243), with
`fuel = max_pages - page` making the `while page < max_pages` bound
structural.  Returns the accumulated items and the number of page requests
issued. -/
def copartPages (api : Nat → CopartResponse) (now : String)
    (epochFmt : Nat → Option String) : Nat → Nat → List Listing × Nat
  | _, 0 => ([], 0)
  | page, fuel + 1 =>
    if (api page).status ≠ 200 then ([], 1)
    else if (api page).returnCode ≠ 1 then ([], 1)
    else if (api page).content.isEmpty then ([], 1)
    else if (api page).content.length < 100 ∨ (page + 1) * 100 ≥ (api page).totalElements then
      (pageItems now epochFmt (api page).content, 1)
    else
      (pageItems now epochFmt (api page).content ++
          (copartPages api now epochFmt (page + 1) fuel).1,
        (copartPages api now epochFmt (page + 1) fuel).2 + 1)

/-- `scrape_copart` (scraper.py:163-246) against an abstract API, starting
at page 0 with `max_pages = 40`. -/
def scrape_copart (api : Nat → CopartResponse) (now : String)
    (epochFmt : Nat → Option String) : List Listing × Nat :=
  copartPages api now epochFmt 0 40

/-- The per-page stop condition the code actually tests, in source order:
HTTP status other than 200, `returnCode` other than 1, empty page, short
page, or `(page+1)*100 >= totalElements`. -/
def copartStop (page : Nat) (r : CopartResponse) : Bool :=
  decide (r.status ≠ 200) || decide (r.returnCode ≠ 1) || r.content.isEmpty ||
    decide (r.content.length < 100) || decide ((page + 1) * 100 ≥ r.totalElements)

/-- The per-page stop condition as the claim words it, with "non-2xx HTTP
status" in place of the code's "status other than 200". -/
def copartStopClaimed (page : Nat) (r : CopartResponse) : Bool :=
  decide (r.status < 200 ∨ 300 ≤ r.status) || decide (r.returnCode ≠ 1) ||
    r.content.isEmpty || decide (r.content.length < 100) ||
    decide ((page + 1) * 100 ≥ r.totalElements)

/-- A content lot for the synthetic stubs (all keys absent). -/
def stubLot : CopartLot := {}

/-- The claim's stub API: pages of sizes [100, 100, 37] with a consistent
`totalElements` of 237. -/
def stubApi : Nat → CopartResponse
  | 0 => { status := 200, returnCode := 1, content := List.replicate 100 stubLot, totalElements := 237 }
  | 1 => { status := 200, returnCode := 1, content := List.replicate 100 stubLot, totalElements := 237 }
  | _ => { status := 200, returnCode := 1, content := List.replicate 37 stubLot, totalElements := 237 }

/-- A stub API answering every page with HTTP 204 (a 2xx status other than
200) and a full page far from exhaustion. -/
def stub204 : Nat → CopartResponse := fun _ =>
  { status := 204, returnCode := 1, content := List.replicate 100 stubLot, totalElements := 100000 }

/-! ### The damage vocabulary of `app.py` -/

/-- `_DAMAGE_PL` (app.py:101-136), in source order.  Note the key
`"burn - Loss"` whose `L` is upper-case. -/
def _DAMAGE_PL : List (String × String) := [
  ("all over", "Cały pojazd"),
  ("biohazard", "Zagrożenie biologiczne"),
  ("burn", "Spalony"),
  ("burn - Loss", "Spalony"),
  ("electrical", "Elektryczne"),
  ("front & rear", "Przód i tył"),
  ("front end", "Przód"),
  ("left & right side", "Lewa i prawa strona"),
  ("left front", "Lewy przód"),
  ("left rear", "Lewy tył"),
  ("left side", "Lewa strona"),
  ("mechanical", "Mechaniczne"),
  ("minor dent/scratches", "Drobne wgniecenia/rysy"),
  ("minor dents/scratches", "Drobne wgniecenia/rysy"),
  ("normal wear", "Normalne zużycie"),
  ("none", "Brak"),
  ("rear", "Tył"),
  ("rear end", "Tył"),
  ("right front", "Prawy przód"),
  ("right rear", "Prawy tył"),
  ("right side", "Prawa strona"),
  ("rollover", "Dachowanie"),
  ("side", "Bok"),
  ("suspension", "Zawieszenie"),
  ("top/roof", "Dach"),
  ("undercarriage", "Podwozie"),
  ("vandalism", "Wandalizm"),
  ("water/flood", "Zalanie"),
  ("hail", "Grad"),
  ("replaced", "Wymieniony"),
  ("unknown", "Nieznane"),
  ("missing/altered vin", "Brak/zmieniony VIN"),
  ("stripped", "Ogołocony"),
  ("partial repair", "Częściowa naprawa")]

/-- `_translate_damage` (app.py:139-143): empty code yields `""`; otherwise
look up the lower-cased, stripped code and fall back to the original code. -/
def _translate_damage (dmg : String) : String :=
  if dmg = "" then "" else (List.lookup (trimS (myLower dmg)) _DAMAGE_PL).getD dmg

/-! ### Concrete data for witnesses and counterexamples -/

/-- A listing with a given link and all other fields empty. -/
def mkListing (l : String) : Listing := { link := l }

/-- A concrete Copart lot. -/
def lotA : CopartLot :=
  { ln := "83113675", ld := "2022 VOLVO XC40", la := some 31675, hb := some 0 }

/-- A second concrete Copart lot sharing `lotA`'s lot number. -/
def lotB : CopartLot :=
  { ln := "83113675", ld := "2021 VOLVO XC40 MOMENTUM", bnp := some 12500 }

/-- A degenerate epoch formatter for concrete evaluations. -/
def noFmt : Nat → Option String := fun _ => none

/-- A concrete Copart lot exercising the four monetary fields: `la` large
and non-zero, `rc` present but zero, `hb` absent, `bnp` non-zero. -/
def lotC6 : CopartLot :=
  { ld := "NO YEAR HERE", la := some 1234567, rc := some 0, bnp := some 12500 }

/-! ### Invariant lemmas about the acceptance loop -/

theorem processItems_cons_accept (item : Listing) (rest : List Listing)
    (ids : Finset String) (h1 : item.link ≠ "") (h2 : item.link ∉ ids) :
    processItems (item :: rest) ids =
      (item :: (processItems rest (insert item.link ids)).1,
        (processItems rest (insert item.link ids)).2) := by
  rw [processItems, if_pos ⟨h1, h2⟩]

theorem processItems_cons_discard (item : Listing) (rest : List Listing)
    (ids : Finset String) (h : item.link = "" ∨ item.link ∈ ids) :
    processItems (item :: rest) ids = processItems rest ids := by
  rw [processItems, if_neg]
  rintro ⟨h1, h2⟩
  rcases h with h | h
  · exact h1 h
  · exact h2 h

theorem not_accept_iff (item : Listing) (ids : Finset String) :
    ¬(item.link ≠ "" ∧ item.link ∉ ids) ↔ item.link = "" ∨ item.link ∈ ids := by
  rw [not_and_or, not_not, not_not]

theorem processItems_link_ne_empty (items : List Listing) (ids : Finset String) :
    ∀ it ∈ (processItems items ids).1, it.link ≠ "" := by
  induction items generalizing ids with
  | nil => intro it h; simp [processItems] at h
  | cons item rest ih =>
    intro it h
    by_cases hc : item.link ≠ "" ∧ item.link ∉ ids
    · rw [processItems_cons_accept item rest ids hc.1 hc.2] at h
      rcases List.mem_cons.1 h with heq | hmem
      · exact heq ▸ hc.1
      · exact ih _ it hmem
    · rw [processItems_cons_discard item rest ids ((not_accept_iff item ids).1 hc)] at h
      exact ih _ it h

theorem processItems_link_not_mem (items : List Listing) (ids : Finset String) :
    ∀ it ∈ (processItems items ids).1, it.link ∉ ids := by
  induction items generalizing ids with
  | nil => intro it h; simp [processItems] at h
  | cons item rest ih =>
    intro it h
    by_cases hc : item.link ≠ "" ∧ item.link ∉ ids
    · rw [processItems_cons_accept item rest ids hc.1 hc.2] at h
      rcases List.mem_cons.1 h with heq | hmem
      · exact heq ▸ hc.2
      · intro habs
        exact ih (insert item.link ids) it hmem (Finset.mem_insert_of_mem habs)
    · rw [processItems_cons_discard item rest ids ((not_accept_iff item ids).1 hc)] at h
      exact ih _ it h

theorem processItems_snd_spec (items : List Listing) (ids : Finset String) :
    ∀ l, l ∈ (processItems items ids).2 ↔
      l ∈ ids ∨ l ∈ (processItems items ids).1.map Listing.link := by
  induction items generalizing ids with
  | nil => intro l; simp [processItems]
  | cons item rest ih =>
    intro l
    by_cases hc : item.link ≠ "" ∧ item.link ∉ ids
    · rw [processItems_cons_accept item rest ids hc.1 hc.2]
      rw [show (item :: (processItems rest (insert item.link ids)).1,
          (processItems rest (insert item.link ids)).2).2 =
          (processItems rest (insert item.link ids)).2 from rfl]
      rw [ih (insert item.link ids) l]
      simp only [Finset.mem_insert, List.map_cons, List.mem_cons]
      tauto
    · rw [processItems_cons_discard item rest ids ((not_accept_iff item ids).1 hc)]
      exact ih ids l

theorem processItems_nodup (items : List Listing) (ids : Finset String) :
    ((processItems items ids).1.map Listing.link).Nodup := by
  induction items generalizing ids with
  | nil => simp [processItems]
  | cons item rest ih =>
    by_cases hc : item.link ≠ "" ∧ item.link ∉ ids
    · rw [processItems_cons_accept item rest ids hc.1 hc.2]
      simp only [List.map_cons, List.nodup_cons]
      refine ⟨?_, ih (insert item.link ids)⟩
      intro hmem
      rcases List.mem_map.1 hmem with ⟨it, hit, hlink⟩
      exact processItems_link_not_mem rest (insert item.link ids) it hit
        (hlink ▸ Finset.mem_insert_self item.link ids)
    · rw [processItems_cons_discard item rest ids ((not_accept_iff item ids).1 hc)]
      exact ih ids

theorem processItems_sublist (items : List Listing) (ids : Finset String) :
    List.Sublist (processItems items ids).1 items := by
  induction items generalizing ids with
  | nil => simp [processItems]
  | cons item rest ih =>
    by_cases hc : item.link ≠ "" ∧ item.link ∉ ids
    · rw [processItems_cons_accept item rest ids hc.1 hc.2]
      exact List.Sublist.cons₂ item (ih (insert item.link ids))
    · rw [processItems_cons_discard item rest ids ((not_accept_iff item ids).1 hc)]
      exact List.Sublist.cons item (ih ids)

theorem processItems_first_seen (items : List Listing) (ids : Finset String) :
    ∀ pre it post, items = pre ++ it :: post → it.link ≠ "" → it.link ∉ ids →
      (∀ p ∈ pre, p.link ≠ it.link) → it ∈ (processItems items ids).1 := by
  induction items generalizing ids with
  | nil =>
    intro pre it post h
    exact absurd h (by simp)
  | cons item rest ih =>
    intro pre it post h hne hnmem hpre
    cases pre with
    | nil =>
      simp only [List.nil_append, List.cons.injEq] at h
      rw [h.1, h.2]
      rw [processItems_cons_accept it post ids hne hnmem]
      exact List.mem_cons_self _ _
    | cons q pre' =>
      simp only [List.cons_append, List.cons.injEq] at h
      have hitem : item = q := h.1
      have hrest : rest = pre' ++ it :: post := h.2
      have hql : item.link ≠ it.link := hitem ▸ hpre q (List.mem_cons_self _ _)
      have hpre' : ∀ p ∈ pre', p.link ≠ it.link := fun p hp =>
        hpre p (List.mem_cons_of_mem _ hp)
      by_cases hc : item.link ≠ "" ∧ item.link ∉ ids
      · rw [processItems_cons_accept item rest ids hc.1 hc.2]
        refine List.mem_cons_of_mem _ ?_
        refine ih (insert item.link ids) pre' it post hrest hne ?_ hpre'
        simp only [Finset.mem_insert]
        rintro (habs | habs)
        · exact hql habs.symm
        · exact hnmem habs
      · rw [processItems_cons_discard item rest ids ((not_accept_iff item ids).1 hc)]
        exact ih ids pre' it post hrest hne hnmem hpre'

theorem processItems_all_known (items : List Listing) (ids : Finset String)
    (h : ∀ it ∈ items, it.link ∈ ids) : processItems items ids = ([], ids) := by
  induction items with
  | nil => rfl
  | cons item rest ih =>
    rw [processItems_cons_discard item rest ids (Or.inr (h item (List.mem_cons_self _ _)))]
    exact ih fun it hit => h it (List.mem_cons_of_mem _ hit)

/-! ### Lemmas about the money formatting -/

theorem natDigitsAux_ne_nil : ∀ fuel n, n < fuel → natDigitsAux fuel n ≠ [] := by
  intro fuel
  induction fuel with
  | zero => intro n h; omega
  | succ f _ =>
    intro n _
    rw [natDigitsAux]
    split
    · simp
    · simp

theorem digitChar_eq_zero_iff (n : Nat) (h : n < 10) :
    Nat.digitChar n = '0' ↔ n = 0 := by
  interval_cases n <;> decide

theorem natDigits_eq_single_zero (n : Nat) (h : natDigits n = ['0']) : n = 0 := by
  rw [natDigits, natDigitsAux] at h
  split at h
  · next hlt => exact (digitChar_eq_zero_iff n hlt).1 (by simpa using h)
  · next hge =>
    exfalso
    have hlen := congrArg List.length h
    simp only [List.length_append, List.length_cons, List.length_nil] at hlen
    exact natDigitsAux_ne_nil n (n / 10) (by omega) (List.length_eq_zero.mp (by omega))

theorem groupRev_eq_single (l : List Char) (c : Char) (h : groupRev l = [c]) :
    l = [c] := by
  match l with
  | [] => simp [groupRev] at h
  | [a] => simpa [groupRev] using h
  | [a, b] => simp [groupRev] at h
  | [a, b, d] => simp [groupRev] at h
  | a :: b :: d :: e :: t => simp [groupRev] at h

theorem fmtComma_eq_zero_iff (n : Nat) : fmtComma n = "0" ↔ n = 0 := by
  constructor
  · intro h
    have hd : (groupRev (natDigits n).reverse).reverse = ['0'] := by
      have h2 := congrArg String.data h
      simpa [fmtComma] using h2
    have h3 : groupRev (natDigits n).reverse = ['0'] := by
      have h4 := congrArg List.reverse hd
      simpa using h4
    have h5 : (natDigits n).reverse = ['0'] := groupRev_eq_single _ _ h3
    have h6 : natDigits n = ['0'] := by
      have h7 := congrArg List.reverse h5
      simpa using h7
    exact natDigits_eq_single_zero n h6
  · rintro rfl
    rfl

theorem dollar_fmt_ne_dollar_zero (n : Nat) (h : n ≠ 0) :
    "$" ++ fmtComma n ≠ "$0" := by
  intro habs
  apply h
  apply (fmtComma_eq_zero_iff n).1
  have h1 := congrArg String.data habs
  rw [String.data_append] at h1
  have h2 : ("$" : String).data = ['$'] := rfl
  have h3 : ("$0" : String).data = ['$', '0'] := rfl
  rw [h2, h3] at h1
  apply String.ext
  have h4 : ("0" : String).data = ['0'] := rfl
  rw [h4]
  simpa using h1

theorem dollar_fmt_ne_empty (n : Nat) : "$" ++ fmtComma n ≠ "" := by
  intro habs
  have h1 := congrArg String.data habs
  rw [String.data_append] at h1
  have h2 : ("$" : String).data = ['$'] := rfl
  have h3 : ("" : String).data = [] := rfl
  rw [h2, h3] at h1
  simp at h1

/-! ### Lemmas about the year scanner -/

theorem char_eq_iff_toNat (c d : Char) : c = d ↔ c.toNat = d.toNat :=
  ⟨fun h => h ▸ rfl, fun h => Char.ext (UInt32.ext h)⟩

theorem isYearWindow_eq (c1 c2 c3 c4 : Char) :
    isYearWindow [c1, c2, c3, c4] =
      (isYearPair c1 c2 && isDigitB c3 && isDigitB c4) := by
  rw [Bool.eq_iff_iff]
  simp only [isYearWindow, isYearPair, isDigitB, digitsVal, List.all_cons, List.all_nil,
    List.foldl_cons, List.foldl_nil, Bool.and_eq_true, Bool.and_true, Bool.or_eq_true,
    decide_eq_true_eq]
  rw [char_eq_iff_toNat c1 '1', char_eq_iff_toNat c2 '9', char_eq_iff_toNat c1 '2',
    char_eq_iff_toNat c2 '0']
  have e1 : ('1').toNat = 49 := rfl
  have e2 : ('9').toNat = 57 := rfl
  have e3 : ('2').toNat = 50 := rfl
  have e4 : ('0').toNat = 48 := rfl
  rw [e1, e2, e3, e4]
  omega

theorem yearHere_eq_take (prev : Option Char) (l : List Char) (y : List Char)
    (h : yearHere prev l = some y) : y = l.take 4 := by
  match l with
  | [] => simp [yearHere] at h
  | [_] => simp [yearHere] at h
  | [_, _] => simp [yearHere] at h
  | [_, _, _] => simp [yearHere] at h
  | c1 :: c2 :: c3 :: c4 :: rest =>
    rw [yearHere] at h
    split_ifs at h
    simp only [Option.some.injEq] at h
    simp [← h]

theorem yearHere_isSome_long (prev : Option Char) (c1 c2 c3 c4 : Char)
    (rest : List Char) :
    (yearHere prev (c1 :: c2 :: c3 :: c4 :: rest)).isSome =
      (boundaryB prev && isYearPair c1 c2 && isDigitB c3 && isDigitB c4 &&
        noWordAhead rest) := by
  rw [yearHere]
  split_ifs with hc
  · simp [hc]
  · rw [Bool.not_eq_true] at hc
    rw [hc]
    rfl

theorem tokenFrom_cons (prev : Option Char) (c : Char) (rest : List Char) (j : Nat) :
    tokenFrom prev (c :: rest) (j + 1) = tokenFrom (some c) rest j := by
  cases j with
  | zero => rfl
  | succ k => rfl

theorem findYearAux_cons_found (prev : Option Char) (c : Char) (rest y : List Char)
    (h : yearHere prev (c :: rest) = some y) :
    findYearAux prev (c :: rest) = some y := by
  rw [findYearAux, h]

theorem findYearAux_cons_not (prev : Option Char) (c : Char) (rest : List Char)
    (h : yearHere prev (c :: rest) = none) :
    findYearAux prev (c :: rest) = findYearAux (some c) rest := by
  rw [findYearAux, h]

theorem findYearAux_eq_none (l : List Char) : ∀ prev : Option Char,
    (∀ i, tokenFrom prev l i = false) → findYearAux prev l = none := by
  induction l with
  | nil => intro prev _; rfl
  | cons c rest ih =>
    intro prev h
    cases hy : yearHere prev (c :: rest) with
    | some y =>
      have h0 := h 0
      rw [tokenFrom] at h0
      simp [prevOf, hy] at h0
    | none =>
      rw [findYearAux_cons_not prev c rest hy]
      refine ih (some c) fun i => ?_
      rw [← tokenFrom_cons prev c rest i]
      exact h (i + 1)

theorem findYearAux_eq_some (l : List Char) : ∀ (prev : Option Char) (i : Nat),
    tokenFrom prev l i = true → (∀ j, j < i → tokenFrom prev l j = false) →
    findYearAux prev l = some ((l.drop i).take 4) := by
  induction l with
  | nil =>
    intro prev i h _
    exfalso
    rw [tokenFrom] at h
    simp [yearHere] at h
  | cons c rest ih =>
    intro prev i h hmin
    cases i with
    | zero =>
      rw [tokenFrom] at h
      simp only [prevOf, List.drop_zero] at h ⊢
      cases hy : yearHere prev (c :: rest) with
      | none => rw [hy] at h; simp at h
      | some y =>
        rw [findYearAux_cons_found prev c rest y hy]
        rw [yearHere_eq_take prev (c :: rest) y hy]
    | succ j =>
      have h0 : tokenFrom prev (c :: rest) 0 = false := hmin 0 (Nat.succ_pos j)
      have hy : yearHere prev (c :: rest) = none := by
        cases hy2 : yearHere prev (c :: rest) with
        | none => rfl
        | some y =>
          rw [tokenFrom] at h0
          simp [prevOf, hy2] at h0
      rw [findYearAux_cons_not prev c rest hy]
      have h' : tokenFrom (some c) rest j = true := by
        rw [← tokenFrom_cons prev c rest j]; exact h
      have hmin' : ∀ k, k < j → tokenFrom (some c) rest k = false := fun k hk => by
        rw [← tokenFrom_cons prev c rest k]
        exact hmin (k + 1) (by omega)
      rw [ih (some c) j h' hmin']
      rfl

theorem boundaryB_prevOf_eq_beforeOk (s : List Char) (i : Nat) :
    boundaryB (prevOf none s i) = beforeOk s i := by
  cases i with
  | zero => rfl
  | succ j =>
    rw [prevOf, beforeOk]
    cases hg : s.get? j with
    | none => rfl
    | some c => rfl

theorem afterOk_eq_noWordAhead (s : List Char) (i : Nat) (c1 c2 c3 c4 : Char)
    (rest : List Char) (hd : s.drop i = c1 :: c2 :: c3 :: c4 :: rest) :
    afterOk s i = noWordAhead rest := by
  have hrest : s.drop (i + 4) = rest := by
    have h4 : List.drop 4 (List.drop i s) = List.drop (i + 4) s := List.drop_drop 4 i s
    rw [← h4, hd]
    rfl
  have hget : s.get? (i + 4) = rest.get? 0 := by
    rw [List.get?_eq_getElem?, List.get?_eq_getElem?]
    rw [← hrest]
    exact (List.getElem?_drop s (i + 4) 0).symm
  rw [afterOk, hget]
  cases rest with
  | nil => rfl
  | cons r t => rfl

theorem tokenFrom_eq_yearTokenAt (s : List Char) (i : Nat) :
    tokenFrom none s i = yearTokenAt s i := by
  have hlen : (s.drop i).length = s.length - i := List.length_drop i s
  rw [tokenFrom]
  match hd : s.drop i with
  | [] =>
    have : ¬ (i + 4 ≤ s.length) := by rw [hd] at hlen; simp at hlen; omega
    simp [yearHere, yearTokenAt, this]
  | [c1] =>
    have : ¬ (i + 4 ≤ s.length) := by rw [hd] at hlen; simp at hlen; omega
    simp [yearHere, yearTokenAt, this]
  | [c1, c2] =>
    have : ¬ (i + 4 ≤ s.length) := by rw [hd] at hlen; simp at hlen; omega
    simp [yearHere, yearTokenAt, this]
  | [c1, c2, c3] =>
    have : ¬ (i + 4 ≤ s.length) := by rw [hd] at hlen; simp at hlen; omega
    simp [yearHere, yearTokenAt, this]
  | c1 :: c2 :: c3 :: c4 :: rest =>
    have hle : i + 4 ≤ s.length := by
      rw [hd] at hlen; simp at hlen; omega
    have htake : (s.drop i).take 4 = [c1, c2, c3, c4] := by rw [hd]; rfl
    rw [yearHere_isSome_long, yearTokenAt, htake, isYearWindow_eq,
      boundaryB_prevOf_eq_beforeOk s i, afterOk_eq_noWordAhead s i c1 c2 c3 c4 rest hd,
      decide_eq_true hle]
    cases beforeOk s i <;> cases isYearPair c1 c2 <;> cases isDigitB c3 <;>
      cases isDigitB c4 <;> cases noWordAhead rest <;> rfl

/-! ### Lemmas about the pagination loop -/

theorem copartPages_stop (api : Nat → CopartResponse) (now : String)
    (ef : Nat → Option String) (page fuel : Nat)
    (h : copartStop page (api page) = true) :
    (copartPages api now ef page (fuel + 1)).2 = 1 := by
  rw [copartPages]
  split_ifs with h1 h2 h3 h4
  · rfl
  · rfl
  · rfl
  · rfl
  · exfalso
    rw [copartStop] at h
    simp only [Bool.or_eq_true, decide_eq_true_eq] at h
    rcases h with ((((h | h) | h) | h) | h)
    · exact h1 h
    · exact h2 h
    · exact h3 h
    · exact h4 (Or.inl h)
    · exact h4 (Or.inr h)

theorem copartPages_cont (api : Nat → CopartResponse) (now : String)
    (ef : Nat → Option String) (page fuel : Nat)
    (h : copartStop page (api page) = false) :
    copartPages api now ef page (fuel + 1) =
      (pageItems now ef (api page).content ++ (copartPages api now ef (page + 1) fuel).1,
        (copartPages api now ef (page + 1) fuel).2 + 1) := by
  rw [copartStop] at h
  simp only [Bool.or_eq_false_iff, decide_eq_false_iff_not, not_not, not_lt, not_le,
    ne_eq] at h
  obtain ⟨⟨⟨⟨h1, h2⟩, h3⟩, h4⟩, h5⟩ := h
  rw [copartPages]
  rw [if_neg (by simpa using h1), if_neg (by simpa using h2),
    if_neg (by simp [h3]), if_neg (by push_neg; exact ⟨h4, h5⟩)]

theorem copartPages_count_first_stop (api : Nat → CopartResponse) (now : String)
    (ef : Nat → Option String) :
    ∀ (d page fuel : Nat), d < fuel →
      copartStop (page + d) (api (page + d)) = true →
      (∀ j, j < d → copartStop (page + j) (api (page + j)) = false) →
      (copartPages api now ef page fuel).2 = d + 1 := by
  intro d
  induction d with
  | zero =>
    intro page fuel hlt hstop _
    obtain ⟨f, rfl⟩ : ∃ f, fuel = f + 1 := ⟨fuel - 1, by omega⟩
    exact copartPages_stop api now ef page f (by simpa using hstop)
  | succ k ih =>
    intro page fuel hlt hstop hmin
    obtain ⟨f, rfl⟩ : ∃ f, fuel = f + 1 := ⟨fuel - 1, by omega⟩
    have h0 : copartStop page (api page) = false := by
      simpa using hmin 0 (Nat.succ_pos k)
    rw [copartPages_cont api now ef page f h0]
    have hstop' : copartStop (page + 1 + k) (api (page + 1 + k)) = true := by
      have e : page + 1 + k = page + (k + 1) := by omega
      rw [e]; exact hstop
    have hmin' : ∀ j, j < k → copartStop (page + 1 + j) (api (page + 1 + j)) = false := by
      intro j hj
      have e : page + 1 + j = page + (j + 1) := by omega
      rw [e]; exact hmin (j + 1) (by omega)
    have := ih (page + 1) f (by omega) hstop' hmin'
    simp [this]

theorem copartPages_count_no_stop (api : Nat → CopartResponse) (now : String)
    (ef : Nat → Option String) :
    ∀ (fuel page : Nat),
      (∀ j, j < fuel → copartStop (page + j) (api (page + j)) = false) →
      (copartPages api now ef page fuel).2 = fuel := by
  intro fuel
  induction fuel with
  | zero => intro page _; rfl
  | succ f ih =>
    intro page h
    have h0 : copartStop page (api page) = false := by
      simpa using h 0 (Nat.succ_pos f)
    rw [copartPages_cont api now ef page f h0]
    have h' : ∀ j, j < f → copartStop (page + 1 + j) (api (page + 1 + j)) = false := by
      intro j hj
      have e : page + 1 + j = page + (j + 1) := by omega
      rw [e]; exact h (j + 1) (by omega)
    simp [ih (page + 1) h']

theorem mem_get_existing_ids (C : List Listing) (l : String) :
    l ∈ get_existing_ids C ↔ l ∈ C.map Listing.link := by
  simp [get_existing_ids]

/-! ### Claim theorems -/

/-- C1: re-running the Coordinator against unchanged external state is
idempotent: if every listing both adapters emit has a link already present
in the loaded catalog `C`, then `run_scraper` returns zero new records,
calls no save, and leaves the catalog file unchanged. -/
theorem c1_idempotent_rerun (C iaaiItems copartItems : List Listing)
    (h : ∀ it ∈ iaaiItems ++ copartItems, it.link ∈ C.map Listing.link) :
    run_scraper (some (some C)) (.ok iaaiItems) (.ok copartItems) =
      .ok ⟨[], false, some (some C)⟩ := by
  have h1 : processItems iaaiItems (get_existing_ids C) = ([], get_existing_ids C) :=
    processItems_all_known _ _ fun it hit =>
      (mem_get_existing_ids C it.link).2 (h it (List.mem_append_left _ hit))
  have h2 : processItems copartItems (get_existing_ids C) = ([], get_existing_ids C) :=
    processItems_all_known _ _ fun it hit =>
      (mem_get_existing_ids C it.link).2 (h it (List.mem_append_right _ hit))
  simp only [run_scraper, load_existing_listings, Except.toOption, Option.getD]
  rw [h1]
  simp only []
  rw [h2]
  simp

/-- Witness for C1 at a one-element catalog and adapters re-emitting it. -/
theorem c1_witness :
    run_scraper (some (some [mkListing "L1"])) (.ok [mkListing "L1"])
        (.ok [mkListing "L1"]) =
      .ok ⟨[], false, some (some [mkListing "L1"])⟩ :=
  c1_idempotent_rerun [mkListing "L1"] [mkListing "L1"] [mkListing "L1"] (by decide)

/-- C2: the acceptance loop discards empty-link listings, discards listings
whose link is already in the identity index, accepts the rest in emission
order while adding their links to the index; hence accepted links are
pairwise distinct (first-seen wins) and no empty-link record is ever
accepted. -/
theorem c2_acceptance_filter (items : List Listing) (ids : Finset String) :
    (∀ it ∈ (processItems items ids).1, it.link ≠ "") ∧
    (∀ it ∈ (processItems items ids).1, it.link ∉ ids) ∧
    ((processItems items ids).1.map Listing.link).Nodup ∧
    List.Sublist (processItems items ids).1 items ∧
    (∀ l, l ∈ (processItems items ids).2 ↔
      l ∈ ids ∨ l ∈ (processItems items ids).1.map Listing.link) ∧
    (∀ pre it post, items = pre ++ it :: post → it.link ≠ "" → it.link ∉ ids →
      (∀ p ∈ pre, p.link ≠ it.link) → it ∈ (processItems items ids).1) :=
  ⟨processItems_link_ne_empty items ids, processItems_link_not_mem items ids,
    processItems_nodup items ids, processItems_sublist items ids,
    processItems_snd_spec items ids, processItems_first_seen items ids⟩

/-- Witness for C2: an empty-link record followed by two records sharing a
link; exactly the first-seen linked record survives. -/
theorem c2_witness :
    mkListing "L2" ∈ (processItems [mkListing "", mkListing "L2", mkListing "L2"] ∅).1 ∧
    (processItems [mkListing "", mkListing "L2", mkListing "L2"] ∅).1 =
      [mkListing "L2"] := by
  constructor
  · exact (c2_acceptance_filter [mkListing "", mkListing "L2", mkListing "L2"] ∅).2.2.2.2.2
      [mkListing ""] (mkListing "L2") [mkListing "L2"] rfl (by decide) (by decide) (by decide)
  · decide

theorem merged_nodup (C items1 items2 : List Listing)
    (hnd : (C.map Listing.link).Nodup) :
    ((C ++ ((processItems items1 (get_existing_ids C)).1 ++
        (processItems items2 (processItems items1 (get_existing_ids C)).2).1)).map
      Listing.link).Nodup := by
  rw [List.map_append, List.nodup_append]
  refine ⟨hnd, ?_, ?_⟩
  · rw [List.map_append, List.nodup_append]
    refine ⟨processItems_nodup _ _, processItems_nodup _ _, ?_⟩
    intro a ha hb
    rcases List.mem_map.1 ha with ⟨it1, hit1, hl1⟩
    rcases List.mem_map.1 hb with ⟨it2, hit2, hl2⟩
    refine processItems_link_not_mem _ _ it2 hit2 ?_
    rw [processItems_snd_spec]
    right
    rw [hl2, ← hl1]
    exact List.mem_map_of_mem _ hit1
  · intro a ha hb
    rw [List.map_append, List.mem_append] at hb
    rcases hb with hb | hb
    · rcases List.mem_map.1 hb with ⟨it, hit, hl⟩
      exact processItems_link_not_mem _ _ it hit
        ((mem_get_existing_ids C it.link).2 (hl ▸ ha))
    · rcases List.mem_map.1 hb with ⟨it, hit, hl⟩
      refine processItems_link_not_mem _ _ it hit ?_
      rw [processItems_snd_spec]
      left
      exact (mem_get_existing_ids C it.link).2 (hl ▸ ha)

/-- C3: link uniqueness is an invariant of a run: if no two listings of the
starting catalog share a link, then no two listings of the catalog on file
after the run share a link. -/
theorem c3_link_uniqueness (C : List Listing) (iaai copart : Except String (List Listing))
    (out : RunOutcome) (hrun : run_scraper (some (some C)) iaai copart = .ok out)
    (hnd : (C.map Listing.link).Nodup) :
    ((catalogOf out.file).map Listing.link).Nodup := by
  simp only [run_scraper, load_existing_listings] at hrun
  split_ifs at hrun with hne
  · rw [Except.ok.injEq] at hrun
    subst hrun
    simpa only [catalogOf] using
      merged_nodup C (iaai.toOption.getD []) (copart.toOption.getD []) hnd
  · rw [Except.ok.injEq] at hrun
    subst hrun
    simpa [catalogOf] using hnd

/-- Witness for C3: a singleton catalog, one genuinely new adapter record. -/
theorem c3_witness :
    (([mkListing "L1", mkListing "L2"] : List Listing).map Listing.link).Nodup := by
  have h := c3_link_uniqueness [mkListing "L1"] (.ok [mkListing "L2"]) (.ok [])
    ⟨[mkListing "L2"], true, some (some [mkListing "L1", mkListing "L2"])⟩
    rfl (by decide)
  simpa [catalogOf] using h

/-- C4: the merge is non-destructive and avoids no-op writes: a run with a
non-empty accepted set persists exactly the prior catalog followed by the
accepted listings (the prior catalog is a prefix, unchanged in content and
position), and a run with an empty accepted set performs no write. -/
theorem c4_merge_frame (C : List Listing) (iaai copart : Except String (List Listing))
    (out : RunOutcome) (hrun : run_scraper (some (some C)) iaai copart = .ok out) :
    (out.new_listings ≠ [] →
      out.wrote = true ∧
      out.file = some (some (C ++ out.new_listings)) ∧
      catalogOf out.file = C ++ out.new_listings ∧
      (C ++ out.new_listings).take C.length = C) ∧
    (out.new_listings = [] →
      out.wrote = false ∧ out.file = some (some C) ∧ catalogOf out.file = C) := by
  simp only [run_scraper, load_existing_listings] at hrun
  split_ifs at hrun with hne
  · rw [Except.ok.injEq] at hrun
    subst hrun
    refine ⟨fun _ => ⟨rfl, rfl, rfl, List.take_left C _⟩, fun habs => absurd habs hne⟩
  · rw [Except.ok.injEq] at hrun
    subst hrun
    rw [not_not] at hne
    exact ⟨fun habs => absurd hne habs, fun _ => ⟨rfl, rfl, rfl⟩⟩

/-- Witness for C4 at a singleton catalog and one new record. -/
theorem c4_witness :
    ([mkListing "L1"] ++ [mkListing "L2"]).take 1 = [mkListing "L1"] := by
  have h := c4_merge_frame [mkListing "L1"] (.ok [mkListing "L2"]) (.ok [])
    ⟨[mkListing "L2"], true, some (some [mkListing "L1", mkListing "L2"])⟩ rfl
  exact (h.1 (List.cons_ne_nil _ _)).2.2.2

/-- C9: a missing catalog file loads as the empty catalog and never fails
the run, while a malformed catalog file surfaces an error through
`run_scraper` to its caller instead of being treated as empty. -/
theorem c9_load_semantics :
    load_existing_listings none = .ok [] ∧
    (∃ e, load_existing_listings (some none) = .error e) ∧
    (∀ iaai copart, ∃ e, run_scraper (some none) iaai copart = .error e) ∧
    (∀ iaai copart, ∃ out, run_scraper none iaai copart = .ok out) := by
  refine ⟨rfl, ⟨_, rfl⟩, fun iaai copart => ⟨_, rfl⟩, fun iaai copart => ?_⟩
  simp only [run_scraper, load_existing_listings]
  split_ifs with h
  · exact ⟨_, rfl⟩
  · exact ⟨_, rfl⟩

/-- C5 (amended): pagination stops exactly per the code's policy — HTTP
status other than 200, `returnCode` other than 1, empty page, page shorter
than 100, or `(page+1)*100 >= totalElements`, whichever fires first, with a
hard cap of 40 page requests — and the [100, 100, 37] stub with
`totalElements = 237` takes exactly 3 page requests. -/
theorem c5_pagination_policy :
    (∀ (api : Nat → CopartResponse) (now : String) (ef : Nat → Option String) (p : Nat),
      p < 40 → copartStop p (api p) = true →
      (∀ q, q < p → copartStop q (api q) = false) →
      (scrape_copart api now ef).2 = p + 1) ∧
    (∀ (api : Nat → CopartResponse) (now : String) (ef : Nat → Option String),
      (∀ p, p < 40 → copartStop p (api p) = false) →
      (scrape_copart api now ef).2 = 40) ∧
    (scrape_copart stubApi "" noFmt).2 = 3 := by
  refine ⟨?_, ?_, ?_⟩
  · intro api now ef p hp hstop hmin
    exact copartPages_count_first_stop api now ef p 0 40 hp (by simpa using hstop)
      (fun j hj => by simpa using hmin j hj)
  · intro api now ef h
    exact copartPages_count_no_stop api now ef 40 0 (fun j hj => by simpa using h j hj)
  · rfl

/-- Witness for C5 at the [100, 100, 37] stub: the first stopping page is
page 2, so exactly 3 requests are issued. -/
theorem c5_witness : (scrape_copart stubApi "" noFmt).2 = 2 + 1 := by
  refine c5_pagination_policy.1 stubApi "" noFmt 2 (by omega) rfl ?_
  intro q hq
  interval_cases q
  · rfl
  · rfl

/-- Counterexample to C5 as stated: the claim enumerates "non-2xx HTTP
status" among the stop conditions, but the code stops on any status other
than 200.  Against a stub answering HTTP 204 with full pages far from
exhaustion, none of the claimed conditions holds on any page below the
40-page cap — the claimed policy would issue 40 requests — yet the adapter
stops after exactly 1 request. -/
theorem c5_counterexample :
    (∀ p, p < 40 → copartStopClaimed p (stub204 p) = false) ∧
    (scrape_copart stub204 "" noFmt).2 = 1 ∧ (1 : Nat) ≠ 40 := by
  refine ⟨?_, rfl, by omega⟩
  intro p hp
  have h1 : ¬ ((204 : Nat) < 200 ∨ 300 ≤ (204 : Nat)) := by omega
  have h2 : ¬ ((p + 1) * 100 ≥ 100000) := by omega
  have h3 : (List.replicate 100 stubLot).isEmpty = false := rfl
  have h4 : ¬ ((List.replicate 100 stubLot).length < 100) := by
    rw [List.length_replicate]
    omega
  simp [copartStopClaimed, stub204, h1, h2, h3, h4]

/-- C6: each Copart monetary field renders as `""` when its raw value is
zero or absent — never as `"$0"` — and as a dollar-prefixed,
thousands-separated digit string when present and non-zero. -/
theorem c6_zero_price_suppression (now : String) (ef : Nat → Option String)
    (lot : CopartLot) (item : Listing)
    (h : _parse_copart_lot now ef lot = some item) :
    ((lot.la = none ∨ lot.la = some 0) → item.est_value = "") ∧
    (∀ v, lot.la = some v → v ≠ 0 → item.est_value = "$" ++ fmtComma v) ∧
    item.est_value ≠ "$0" ∧
    ((lot.rc = none ∨ lot.rc = some 0) → item.repair_cost = "") ∧
    (∀ v, lot.rc = some v → v ≠ 0 → item.repair_cost = "$" ++ fmtComma v) ∧
    item.repair_cost ≠ "$0" ∧
    ((lot.hb = none ∨ lot.hb = some 0) → item.bid = "") ∧
    (∀ v, lot.hb = some v → v ≠ 0 → item.bid = "$" ++ fmtComma v) ∧
    item.bid ≠ "$0" ∧
    ((lot.bnp = none ∨ lot.bnp = some 0) → item.buy_now = "") ∧
    (∀ v, lot.bnp = some v → v ≠ 0 → item.buy_now = "$" ++ fmtComma v) ∧
    item.buy_now ≠ "$0" := by
  by_cases hld : lot.ld = ""
  · rw [_parse_copart_lot, if_pos hld] at h
    exact absurd h (by simp)
  · rw [_parse_copart_lot, if_neg hld] at h
    simp only [Option.some.injEq] at h
    subst h
    refine ⟨?_, ?_, ?_, ?_, ?_, ?_, ?_, ?_, ?_, ?_, ?_, ?_⟩
    · rintro (hv | hv) <;> simp [hv]
    · intro v hv hne
      simp [hv, hne]
    · cases hv : lot.la with
      | none => simp
      | some v =>
        by_cases hz : v = 0
        · subst hz; simp
        · simpa [hv, hz] using dollar_fmt_ne_dollar_zero v hz
    · rintro (hv | hv) <;> simp [hv]
    · intro v hv hne
      simp [hv, hne]
    · cases hv : lot.rc with
      | none => simp
      | some v =>
        by_cases hz : v = 0
        · subst hz; simp
        · simpa [hv, hz] using dollar_fmt_ne_dollar_zero v hz
    · rintro (hv | hv) <;> simp [hv]
    · intro v hv hne
      simp [hv, hne]
    · cases hv : lot.hb with
      | none => simp
      | some v =>
        by_cases hz : v = 0
        · subst hz; simp
        · simpa [hv, hz] using dollar_fmt_ne_dollar_zero v hz
    · rintro (hv | hv) <;> simp [hv]
    · intro v hv hne
      simp [hv, hne, Nat.pos_of_ne_zero hne]
    · cases hv : lot.bnp with
      | none => simp
      | some v =>
        by_cases hz : v = 0
        · subst hz; simp
        · simpa [hv, hz, Nat.pos_of_ne_zero hz] using dollar_fmt_ne_dollar_zero v hz

/-- Witness for C6 at `lotC6`: `la` non-zero renders grouped, `rc` zero and
`hb` absent render empty, `bnp` non-zero renders grouped. -/
theorem c6_witness :
    (_parse_copart_lot "" noFmt lotC6).map Listing.est_value = some "$1,234,567" ∧
    (_parse_copart_lot "" noFmt lotC6).map Listing.repair_cost = some "" ∧
    (_parse_copart_lot "" noFmt lotC6).map Listing.bid = some "" ∧
    (_parse_copart_lot "" noFmt lotC6).map Listing.buy_now = some "$12,500" := by
  obtain ⟨item, hitem⟩ : ∃ it, _parse_copart_lot "" noFmt lotC6 = some it := ⟨_, rfl⟩
  have hc := c6_zero_price_suppression "" noFmt lotC6 item hitem
  have h1 : item.est_value = "$" ++ fmtComma 1234567 := hc.2.1 1234567 rfl (by omega)
  have h2 : item.repair_cost = "" := hc.2.2.2.1 (Or.inr rfl)
  have h3 : item.bid = "" := hc.2.2.2.2.2.2.1 (Or.inl rfl)
  have h4 : item.buy_now = "$" ++ fmtComma 12500 :=
    hc.2.2.2.2.2.2.2.2.2.2.1 12500 rfl (by omega)
  refine ⟨?_, ?_, ?_, ?_⟩
  · rw [hitem]
    show some item.est_value = some "$1,234,567"
    rw [h1]
    rfl
  · rw [hitem]
    show some item.repair_cost = some ""
    rw [h2]
  · rw [hitem]
    show some item.bid = some ""
    rw [h3]
  · rw [hitem]
    show some item.buy_now = some "$12,500"
    rw [h4]
    rfl

/-- C7: for a parsed Copart lot, `year` is the text of the first 4-digit
token of the description with value in [1900, 2099] and word boundaries on
both sides (empty when no such token exists), and `make_model` is the
description with every occurrence of that year text removed and the result
stripped (the description itself when no year was found). -/
theorem c7_year_extraction (now : String) (ef : Nat → Option String)
    (lot : CopartLot) (item : Listing)
    (h : _parse_copart_lot now ef lot = some item) :
    ((∀ i, yearTokenAt lot.ld.data i = false) →
      item.year = "" ∧ item.make_model = lot.ld) ∧
    (∀ i, yearTokenAt lot.ld.data i = true →
      (∀ j, j < i → yearTokenAt lot.ld.data j = false) →
      item.year = String.mk ((lot.ld.data.drop i).take 4) ∧
      item.year.length = 4 ∧
      1900 ≤ digitsVal item.year.data ∧ digitsVal item.year.data ≤ 2099 ∧
      item.make_model = trimS (strReplace lot.ld item.year "")) := by
  by_cases hld : lot.ld = ""
  · rw [_parse_copart_lot, if_pos hld] at h
    exact absurd h (by simp)
  · rw [_parse_copart_lot, if_neg hld] at h
    simp only [Option.some.injEq] at h
    subst h
    constructor
    · intro hall
      have hnone : findYearAux none lot.ld.data = none :=
        findYearAux_eq_none _ none fun i => by
          rw [tokenFrom_eq_yearTokenAt]
          exact hall i
      have hy : findYear lot.ld = "" := by rw [findYear, hnone]
      refine ⟨hy, ?_⟩
      show (if findYear lot.ld = "" then lot.ld
        else trimS (strReplace lot.ld (findYear lot.ld) "")) = lot.ld
      rw [if_pos hy]
    · intro i htok hmin
      have hsome : findYearAux none lot.ld.data = some ((lot.ld.data.drop i).take 4) :=
        findYearAux_eq_some _ none i
          (by rw [tokenFrom_eq_yearTokenAt]; exact htok)
          (fun j hj => by rw [tokenFrom_eq_yearTokenAt]; exact hmin j hj)
      have hy : findYear lot.ld = String.mk ((lot.ld.data.drop i).take 4) := by
        rw [findYear, hsome]
      have hfacts : (i + 4 ≤ lot.ld.data.length) ∧
          isYearWindow ((lot.ld.data.drop i).take 4) = true := by
        rw [yearTokenAt] at htok
        simp only [Bool.and_eq_true, decide_eq_true_eq] at htok
        exact ⟨htok.1.1.1, htok.1.1.2⟩
      have hwlen : ((lot.ld.data.drop i).take 4).length = 4 := by
        rw [List.length_take, List.length_drop]
        omega
      have hrange : 1900 ≤ digitsVal ((lot.ld.data.drop i).take 4) ∧
          digitsVal ((lot.ld.data.drop i).take 4) ≤ 2099 := by
        have hw := hfacts.2
        rw [isYearWindow] at hw
        simp only [Bool.and_eq_true, decide_eq_true_eq] at hw
        exact ⟨hw.1.2, hw.2⟩
      have hyne : findYear lot.ld ≠ "" := by
        rw [hy]
        intro habs
        have hdata : ((lot.ld.data.drop i).take 4) = [] := congrArg String.data habs
        rw [hdata] at hwlen
        simp at hwlen
      refine ⟨hy, ?_, ?_, ?_, ?_⟩
      · show (findYear lot.ld).length = 4
        rw [hy]
        exact hwlen
      · show 1900 ≤ digitsVal (findYear lot.ld).data
        rw [hy]
        exact hrange.1
      · show digitsVal (findYear lot.ld).data ≤ 2099
        rw [hy]
        exact hrange.2
      · show (if findYear lot.ld = "" then lot.ld
          else trimS (strReplace lot.ld (findYear lot.ld) "")) =
          trimS (strReplace lot.ld (findYear lot.ld) "")
        rw [if_neg hyne]

/-- Witness for C7 at `lotA` (description "2022 VOLVO XC40", year token at
position 0). -/
theorem c7_witness :
    (_parse_copart_lot "" noFmt lotA).map Listing.year = some "2022" ∧
    (_parse_copart_lot "" noFmt lotA).map Listing.make_model = some "VOLVO XC40" := by
  obtain ⟨item, hitem⟩ : ∃ it, _parse_copart_lot "" noFmt lotA = some it := ⟨_, rfl⟩
  have hc := (c7_year_extraction "" noFmt lotA item hitem).2 0 (by decide)
    (fun j hj => absurd hj (by omega))
  obtain ⟨hy, _, _, _, hmm⟩ := hc
  constructor
  · rw [hitem]
    show some item.year = some "2022"
    rw [hy]
    rfl
  · rw [hitem]
    show some item.make_model = some "VOLVO XC40"
    rw [hmm, hy]
    rfl

theorem parse_copart_link (now : String) (ef : Nat → Option String)
    (lot : CopartLot) (item : Listing) (h : _parse_copart_lot now ef lot = some item) :
    item.link = "https://www.copart.com/lot/" ++ lot.ln := by
  by_cases hld : lot.ld = ""
  · rw [_parse_copart_lot, if_pos hld] at h
    exact absurd h (by simp)
  · rw [_parse_copart_lot, if_neg hld] at h
    simp only [Option.some.injEq] at h
    subst h
    rfl

/-- C10: every parsed Copart listing's link is the fixed prefix followed by
the lot number, hence never empty (the Coordinator's empty-link discard can
never fire for it, its link being non-empty); two lots with equal lot
numbers yield equal links, and a single acceptance pass never accepts two
listings with the same link. -/
theorem c10_copart_link (now : String) (ef : Nat → Option String)
    (lot : CopartLot) (item : Listing)
    (h : _parse_copart_lot now ef lot = some item) :
    item.link = "https://www.copart.com/lot/" ++ lot.ln ∧
    item.link ≠ "" ∧
    (∀ now2 ef2 lot2 item2, _parse_copart_lot now2 ef2 lot2 = some item2 →
      lot2.ln = lot.ln → item2.link = item.link) ∧
    (∀ (items : List Listing) (ids : Finset String),
      ((processItems items ids).1.map Listing.link).Nodup) := by
  refine ⟨parse_copart_link now ef lot item h, ?_, ?_,
    fun items ids => processItems_nodup items ids⟩
  · intro habs
    rw [parse_copart_link now ef lot item h] at habs
    have h2 := congrArg String.length habs
    rw [String.length_append] at h2
    have h3 : ("https://www.copart.com/lot/" : String).length = 27 := rfl
    have h4 : ("" : String).length = 0 := rfl
    rw [h3, h4] at h2
    omega
  · intro now2 ef2 lot2 item2 h2 hln
    rw [parse_copart_link now2 ef2 lot2 item2 h2, parse_copart_link now ef lot item h,
      hln]

/-- Witness for C10 at `lotA` and `lotB`, which share the lot number. -/
theorem c10_witness :
    (_parse_copart_lot "" noFmt lotA).map Listing.link =
      some "https://www.copart.com/lot/83113675" ∧
    (_parse_copart_lot "" noFmt lotB).map Listing.link =
      (_parse_copart_lot "" noFmt lotA).map Listing.link := by
  obtain ⟨iA, hA⟩ : ∃ x, _parse_copart_lot "" noFmt lotA = some x := ⟨_, rfl⟩
  obtain ⟨iB, hB⟩ : ∃ x, _parse_copart_lot "" noFmt lotB = some x := ⟨_, rfl⟩
  have hc := c10_copart_link "" noFmt lotA iA hA
  have heq : iB.link = iA.link := hc.2.2.1 "" noFmt lotB iB hB rfl
  constructor
  · rw [hA]
    show some iA.link = some "https://www.copart.com/lot/83113675"
    rw [hc.1]
    rfl
  · rw [hA, hB]
    show some iB.link = some iA.link
    rw [heq]

/-- C8 (code bug): `_translate_damage` lower-cases and strips the code
before the table lookup, so the mixed-case table key `"burn - Loss"` can
never be matched: its own code passes through unchanged instead of mapping
to its label `"Spalony"`, while all-lowercase keys such as `"front end"`
behave as the claim describes. -/
theorem c8_dead_vocabulary_entry :
    ("burn - Loss", "Spalony") ∈ _DAMAGE_PL ∧
    _translate_damage "burn - Loss" = "burn - Loss" ∧
    _translate_damage " BURN - LOSS " = " BURN - LOSS " ∧
    _translate_damage "burn - Loss" ≠ "Spalony" ∧
    _translate_damage " Front End " = "Przód" ∧
    _translate_damage "" = "" ∧
    _translate_damage "weird code" = "weird code" :=
  ⟨by decide, rfl, rfl, by decide, rfl, rfl, rfl⟩
